import Mathlib

/-!
Verification of the reporting/aggregation core of the Time-Management
application (React/TypeScript sources under `src/src/pages`).

Shallow embedding conventions:
* JavaScript timestamps (`Date` values) are modelled as `Int` milliseconds
  since the Unix epoch; the host timezone is modelled as UTC, so
  `setHours(0,0,0,0)` is flooring to a day boundary and `format(d,'yyyy-MM-dd')`
  reads the civil UTC date.
* Optional / nullable fields become `Option`; JavaScript truthiness tests on
  numbers (`if (entry.duration_minutes)`) are modelled as `some m` with `m ≠ 0`,
  and truthiness on strings (`if (filters.project)`) as `≠ ""`.
* `number` arithmetic that stays on integers is modelled in `Int`;
  fractional hour/rate arithmetic is modelled in `ℚ` (the concrete values
  exercised are exactly representable in binary floating point, so `ℚ`
  agrees with the JS semantics on them).
* `Math.round x` is `⌊x + 1/2⌋` (JS rounds halves toward +∞);
  `Math.floor` on an exact division is `Int.fdiv`.
* `date-fns`' `differenceInSeconds` truncates toward zero: `Int.tdiv _ 1000`.
-/

namespace TM

/-- Milliseconds in one civil day. -/
def msPerDay : Int := 86400000

/-- `setHours(0,0,0,0)` under the UTC model: floor an instant to its day start. -/
def startOfDayMs (t : Int) : Int := msPerDay * (Int.fdiv t msPerDay)

/-- `setHours(23,59,59,999)` under the UTC model: last millisecond of the day. -/
def endOfDayMs (t : Int) : Int := startOfDayMs t + (msPerDay - 1)

/-- Civil calendar date (year, 1-based month, day). -/
structure Ymd where
  y : Int
  m : Int
  d : Int
deriving DecidableEq, Repr

/-- Days since 1970-01-01 of a civil date (standard civil-from-days algorithm,
matching what `format(d,'yyyy-MM-dd')` / `parseISO` do under the UTC model). -/
def daysFromCivil (c : Ymd) : Int :=
  let y := if c.m ≤ 2 then c.y - 1 else c.y
  let era := Int.fdiv y 400
  let yoe := y - era * 400
  let mp := if c.m > 2 then c.m - 3 else c.m + 9
  let doy := Int.fdiv (153 * mp + 2) 5 + c.d - 1
  let doe := yoe * 365 + Int.fdiv yoe 4 - Int.fdiv yoe 100 + doy
  era * 146097 + doe - 719468

/-- Inverse of `daysFromCivil`: civil date of a day number. -/
def civilFromDays (z0 : Int) : Ymd :=
  let z := z0 + 719468
  let era := Int.fdiv z 146097
  let doe := z - era * 146097
  let yoe := Int.fdiv (doe - Int.fdiv doe 1460 + Int.fdiv doe 36524 - Int.fdiv doe 146096) 365
  let y := yoe + era * 400
  let doy := doe - (365 * yoe + Int.fdiv yoe 4 - Int.fdiv yoe 100)
  let mp := Int.fdiv (5 * doy + 2) 153
  let d := doy - Int.fdiv (153 * mp + 2) 5 + 1
  let m := if mp < 10 then mp + 3 else mp - 9
  ⟨if m ≤ 2 then y + 1 else y, m, d⟩

/-- Civil date of an instant (UTC model). -/
def civilFromMs (t : Int) : Ymd := civilFromDays (Int.fdiv t msPerDay)

/-- Epoch milliseconds of a civil date's midnight (what `parseISO 'yyyy-MM-dd'`
and `new Date('yyyy-MM-dd')` return). -/
def msFromCivil (c : Ymd) : Int := msPerDay * daysFromCivil c

/-- Zero-pad a number to two digits, as `date-fns` `'MM'`/`'dd'` do. -/
def pad2 (n : Int) : String :=
  if 0 ≤ n ∧ n < 10 then "0" ++ toString n else toString n

/-- `format(d, 'yyyy-MM-dd')`. -/
def formatYmd (c : Ymd) : String :=
  toString c.y ++ "-" ++ pad2 c.m ++ "-" ++ pad2 c.d

/-- Abbreviated month names of the `date-fns` Danish locale (`'MMM'`). -/
def danishMonthAbbr (m : Int) : String :=
  if m = 1 then "jan." else if m = 2 then "feb." else if m = 3 then "mar."
  else if m = 4 then "apr." else if m = 5 then "maj" else if m = 6 then "jun."
  else if m = 7 then "jul." else if m = 8 then "aug." else if m = 9 then "sep."
  else if m = 10 then "okt." else if m = 11 then "nov." else if m = 12 then "dec."
  else ""

/-- `formatDate(d, 'dd MMM')` from `utils/localization.ts` (Danish locale). -/
def formatDDMMM (c : Ymd) : String := pad2 c.d ++ " " ++ danishMonthAbbr c.m

/-- `Math.round` of a rational: JavaScript rounds halves toward +∞. -/
def jsRound (q : ℚ) : Int := ⌊q + 1/2⌋

/-- `Math.round(x * 100) / 100` — rounding to two decimals. -/
def round2 (q : ℚ) : ℚ := (jsRound (q * 100) : ℚ) / 100

/-- `Math.round(x * 10) / 10` — rounding to one decimal. -/
def round1 (q : ℚ) : ℚ := (jsRound (q * 10) : ℚ) / 10

/-- `date-fns` `differenceInSeconds` (default rounding: truncate toward zero). -/
def differenceInSeconds (endMs startMs : Int) : Int :=
  Int.tdiv (endMs - startMs) 1000

/-- A joined customer record (`customers(id, name)`). -/
structure Customer where
  id : String
  name : String
deriving DecidableEq, Repr

/-- A joined task record (`tasks(id, name)`). -/
structure Task where
  id : String
  name : String
deriving DecidableEq, Repr

/-- A time entry, the union of the `TimeEntry` interfaces of `Reports.tsx`,
`Dashboard.tsx` and `TimeEntries.tsx`.  Timestamp strings are carried in
parsed form (epoch ms); `date` holds the instant `new Date(entry.date)` /
`parseISO(entry.date)` yields (midnight of the civil date); `created_at`
is mandatory in the schema.  `duration` exists only in `Dashboard.tsx`. -/
structure Entry where
  duration_minutes : Option Int
  duration : Option Int
  start_time : Option Int
  end_time : Option Int
  date : Option Int
  created_at : Int
  billable : Bool
  rate : Option ℚ
  customer_id : Option String
  customer : Option Customer
  task : Option Task
deriving DecidableEq, Repr

/-- `Reports.tsx` `calculateDuration` (seconds).  `now` models the ambient
`new Date()` read for a still-running entry.  The guard
`if (entry.duration_minutes)` is a JS truthiness test, so `0` falls through. -/
def reportsCalculateDuration (e : Entry) (now : Int) : Int :=
  match e.duration_minutes with
  | some m =>
    if m ≠ 0 then m * 60
    else match e.start_time, e.end_time with
      | some s, some t => differenceInSeconds t s
      | some s, none => differenceInSeconds now s
      | _, _ => 0
  | none =>
    match e.start_time, e.end_time with
    | some s, some t => differenceInSeconds t s
    | some s, none => differenceInSeconds now s
    | _, _ => 0

/-- Per-entry minutes contributed inside `Dashboard.tsx` `calculateTotalHours`:
`duration_minutes` when non-null (`parseFloat` succeeds on any number,
including 0 and negatives), else the `duration` field, else
`Math.floor((end-start)/60000)` added only when strictly positive;
a running or fieldless entry contributes nothing. -/
def dashboardEntryMinutes (e : Entry) : Int :=
  match e.duration_minutes with
  | some m => m
  | none =>
    match e.duration with
    | some m => m
    | none =>
      match e.start_time, e.end_time with
      | some s, some t =>
        let diffMinutes := Int.fdiv (t - s) 60000
        if diffMinutes > 0 then diffMinutes else 0
      | _, _ => 0

/-- `Dashboard.tsx` `calculateTotalHours`: sum of per-entry minutes, converted
to hours rounded to one decimal. -/
def dashboardCalculateTotalHours (entries : List Entry) : ℚ :=
  match entries with
  | [] => 0
  | _ =>
    let totalMinutes := entries.foldl (fun acc e => acc + dashboardEntryMinutes e) 0
    round1 ((totalMinutes : ℚ) / 60)

/-- Per-entry minutes inside `TimeEntries.tsx` `calculateTotalHours` — same as
the Dashboard version but without the `duration` branch. -/
def timeEntriesEntryMinutes (e : Entry) : Int :=
  match e.duration_minutes with
  | some m => m
  | none =>
    match e.start_time, e.end_time with
    | some s, some t =>
      let diffMinutes := Int.fdiv (t - s) 60000
      if diffMinutes > 0 then diffMinutes else 0
    | _, _ => 0

/-- `TimeEntries.tsx` `calculateTotalHours`. -/
def timeEntriesCalculateTotalHours (entries : List Entry) : ℚ :=
  match entries with
  | [] => 0
  | _ =>
    let totalMinutes := entries.foldl (fun acc e => acc + timeEntriesEntryMinutes e) 0
    round1 ((totalMinutes : ℚ) / 60)

/-- The effective date used throughout `Reports.tsx` (`filterTimeEntries`,
`generateReport`'s day key, `generatePeriodSummaries`):
`entry.date ? … : entry.start_time ? … : new Date()` — the final fallback is
the ambient current instant, not `created_at`. -/
def reportsEntryDate (e : Entry) (now : Int) : Int :=
  match e.date with
  | some d => d
  | none =>
    match e.start_time with
    | some s => s
    | none => now

/-- `Dashboard.tsx` `getEntryDate`: `date`, else `start_time`, else
`created_at`, else `null`.  `created_at` is mandatory, so the last branch
always produces a value. -/
def dashboardGetEntryDate (e : Entry) : Option Int :=
  match e.date with
  | some d => some d
  | none =>
    match e.start_time with
    | some s => some s
    | none => some e.created_at

/-- `TimeEntries.tsx` `getEntryDate` — textually identical to the Dashboard
version. -/
def timeEntriesGetEntryDate (e : Entry) : Option Int :=
  match e.date with
  | some d => some d
  | none =>
    match e.start_time with
    | some s => some s
    | none => some e.created_at

/-- `Dashboard.tsx` / `TimeEntries.tsx` `isDateInRange`: inclusive on both
ends when `end` is given, open-ended forward when omitted. -/
def isDateInRange (date : Option Int) (start : Int) (stop : Option Int) : Bool :=
  match date with
  | none => false
  | some d =>
    match stop with
    | some e => (start < d || d = start) && (d < e || d = e)
    | none => start < d || d = start

/-- The grouping dimension of `ReportFilters.groupBy` in `Reports.tsx`. -/
inductive GroupBy
  | customer
  | project
  | task
  | day
deriving DecidableEq, Repr

/-- `ReportFilters` of `Reports.tsx`.  `dateFrom`/`dateTo` carry the instant
`new Date('yyyy-MM-dd')` yields for the filter strings, `none` modelling the
empty string; `customer`/`project` are the raw strings (`""` = unset). -/
structure ReportFilters where
  dateFrom : Option Int
  dateTo : Option Int
  customer : String
  project : String
  groupBy : GroupBy
  billableOnly : Bool
deriving DecidableEq, Repr

/-- The date-range portion of `Reports.tsx` `filterTimeEntries`: reject when
below the start-of-day-normalized `from`, reject when above the
end-of-day-normalized `to`; an absent bound imposes no constraint. -/
def reportsDateOk (dateFrom dateTo : Option Int) (entryDate : Int) : Bool :=
  (match dateFrom with
   | none => true
   | some f => !(entryDate < startOfDayMs f)) &&
  (match dateTo with
   | none => true
   | some t => !(entryDate > endOfDayMs t))

/-- `Reports.tsx` `filterTimeEntries`: effective date (with the ambient-`now`
fallback), date range, customer, project (unconditionally rejecting when set,
since tasks are independent of projects), and billable-only predicates. -/
def filterTimeEntries (f : ReportFilters) (now : Int) (entries : List Entry) : List Entry :=
  entries.filter fun e =>
    reportsDateOk f.dateFrom f.dateTo (reportsEntryDate e now) &&
    (f.customer = "" || e.customer_id = some f.customer) &&
    (f.project = "") &&
    (!f.billableOnly || e.billable)

/-- One accumulator cell of `generateReport`'s `groupedData`. -/
structure Agg where
  total : Int
  billable : Int
  nonBillable : Int
deriving DecidableEq, Repr

/-- The group key of `generateReport`: `customer?.name || 'Unknown Customer'`
(JS `||`, so an empty name is also falsy), `'Unknown Project'`,
`task?.name || 'Unknown Task'`, or the effective date formatted
`yyyy-MM-dd`. -/
def groupKey (g : GroupBy) (e : Entry) (now : Int) : String :=
  match g with
  | .customer =>
    match e.customer with
    | some c => if c.name = "" then "Unknown Customer" else c.name
    | none => "Unknown Customer"
  | .project => "Unknown Project"
  | .task =>
    match e.task with
    | some t => if t.name = "" then "Unknown Task" else t.name
    | none => "Unknown Task"
  | .day => formatYmd (civilFromMs (reportsEntryDate e now))

/-- Upsert into `groupedData`: JS objects preserve (string-)key insertion
order, so the accumulator is an insertion-ordered association list. -/
def bumpGroup (groups : List (String × Agg)) (k : String) (dur : Int) (bill : Bool) :
    List (String × Agg) :=
  match groups with
  | [] => [(k, ⟨dur, if bill then dur else 0, if bill then 0 else dur⟩)]
  | (k', a) :: rest =>
    if k' = k then
      (k', ⟨a.total + dur,
            a.billable + (if bill then dur else 0),
            a.nonBillable + (if bill then 0 else dur)⟩) :: rest
    else (k', a) :: bumpGroup rest k dur bill

/-- The grouping pass of `generateReport` over the (already filtered) entries. -/
def groupEntries (g : GroupBy) (now : Int) (entries : List Entry) : List (String × Agg) :=
  entries.foldl
    (fun acc e => bumpGroup acc (groupKey g e now) (reportsCalculateDuration e now) e.billable) []

/-- `ReportData` of `Reports.tsx`. -/
structure ReportRow where
  name : String
  value : ℚ
  seconds : Int
  billableHours : ℚ
  nonBillableHours : ℚ
deriving DecidableEq, Repr

/-- Split a character list on a separator (structural `String.split`). -/
def splitOnChar (sep : Char) : List Char → List (List Char)
  | [] => [[]]
  | c :: cs =>
    if c = sep then [] :: splitOnChar sep cs
    else
      match splitOnChar sep cs with
      | g :: gs => (c :: g) :: gs
      | [] => [[c]]

/-- Parse a non-empty all-digit character list as a natural number. -/
def digitsToNat? : List Char → Option Nat
  | [] => none
  | l => go 0 l
where
  go (acc : Nat) : List Char → Option Nat
    | [] => some acc
    | c :: cs => if c.isDigit then go (acc * 10 + (c.toNat - 48)) cs else none

/-- Parse a `yyyy-MM-dd` string (what `parseISO` receives for day keys). -/
def parseYmd (s : String) : Option Ymd :=
  match splitOnChar (Char.ofNat 45) s.data with
  | [ys, ms', ds] => do
    let y ← digitsToNat? ys
    let m ← digitsToNat? ms'
    let d ← digitsToNat? ds
    pure ⟨(y : Int), (m : Int), (d : Int)⟩
  | _ => none

/-- Row construction in `generateReport`: day keys are re-rendered with
`formatDate(parseISO(name), 'dd MMM')` (Danish), hours are rounded to two
decimals.  Day keys always parse back; the `Option.elim` default is inert. -/
def toReportRow (g : GroupBy) (kv : String × Agg) : ReportRow :=
  { name := if g = .day then (parseYmd kv.1).elim kv.1 formatDDMMM else kv.1
    value := round2 ((kv.2.total : ℚ) / 3600)
    seconds := kv.2.total
    billableHours := round2 ((kv.2.billable : ℚ) / 3600)
    nonBillableHours := round2 ((kv.2.nonBillable : ℚ) / 3600) }

/-- Month table of the JavaScript `Date` string parser (English names). -/
def engMonthIndex (s : String) : Option Int :=
  if s = "jan" then some 1 else if s = "feb" then some 2 else if s = "mar" then some 3
  else if s = "apr" then some 4 else if s = "may" then some 5 else if s = "jun" then some 6
  else if s = "jul" then some 7 else if s = "aug" then some 8 else if s = "sep" then some 9
  else if s = "oct" then some 10 else if s = "nov" then some 11 else if s = "dec" then some 12
  else none

/-- Model of `new Date(label).getTime()` for the `dd MMM` labels the day rows
carry.  The JS parser accepts the classic `"dd Mon."` form: a trailing dot is
skipped, the month word is matched against the ENGLISH month names, and the
missing year defaults to 2001.  Danish abbreviations that are not English
month prefixes (`maj`, `okt`) give an invalid date (`NaN`), modelled `none`. -/
def jsParseDDMMM (s : String) : Option Int :=
  match splitOnChar (Char.ofNat 32) s.data with
  | [dstr, mstr] => do
    let d ← digitsToNat? dstr
    let mtok :=
      match mstr.reverse with
      | c :: rest => if c = Char.ofNat 46 then rest.reverse else mstr
      | [] => mstr
    let m ← engMonthIndex (String.mk mtok)
    pure (msFromCivil ⟨2001, m, (d : Int)⟩)
  | _ => none

/-- Stable insertion of `x` into a list sorted ascending by `key` — the
element goes before the first strictly greater key, matching the stable
`Array.prototype.sort` with a `keyA - keyB` comparator. -/
def insertByKey {α κ : Type} [LinearOrder κ] (key : α → κ) (x : α) : List α → List α
  | [] => [x]
  | y :: ys => if key x ≤ key y then x :: y :: ys else y :: insertByKey key x ys

/-- Stable sort ascending by `key` (models `Array.prototype.sort` with a
numeric key-difference comparator, which ES2019 requires to be stable). -/
def sortByKey {α κ : Type} [LinearOrder κ] (key : α → κ) (l : List α) : List α :=
  l.foldr (insertByKey key) []

/-- `generateReport` of `Reports.tsx`, restricted to its pure output: filter,
group, convert to rows, then sort — day rows by `new Date(name)` (ascending;
unparseable labels compare as `NaN`, which `Array#sort` maps to 0, modelled by
the `getD 0` default), other rows by the `b.seconds - a.seconds` comparator,
i.e. descending seconds. -/
def generateReportData (entries : List Entry) (f : ReportFilters) (now : Int) :
    List ReportRow :=
  let data := (groupEntries f.groupBy now (filterTimeEntries f now entries)).map
    (toReportRow f.groupBy)
  if f.groupBy = .day then
    sortByKey (fun r => (jsParseDDMMM r.name).getD 0) data
  else
    sortByKey (fun r => -r.seconds) data

/-- `ClientSummary` of `Reports.tsx`. -/
structure ClientSummary where
  clientId : String
  clientName : String
  totalHours : ℚ
  billableHours : ℚ
  nonBillableHours : ℚ
  billableAmount : ℚ
deriving DecidableEq, Repr

/-- Upsert into `clientGroups` (keyed by the joined customer's `id`, entries
pushed in order, JS object insertion order preserved). -/
def addToClientGroups (groups : List (String × Customer × List Entry))
    (c : Customer) (e : Entry) : List (String × Customer × List Entry) :=
  match groups with
  | [] => [(c.id, c, [e])]
  | (k, c', es) :: rest =>
    if k = c.id then (k, c', es ++ [e]) :: rest
    else (k, c', es) :: addToClientGroups rest c e

/-- One step of the client-grouping pass of `generateClientSummaries`: an
entry joins a group only when its joined `customer` record is present AND its
`customer_id` is truthy (a present empty string is JS-falsy). -/
def clientGroupsStep (acc : List (String × Customer × List Entry)) (e : Entry) :
    List (String × Customer × List Entry) :=
  match e.customer, e.customer_id with
  | some c, some cid => if cid ≠ "" then addToClientGroups acc c e else acc
  | _, _ => acc

/-- The client-grouping pass of `generateClientSummaries`, run over ALL time
entries (deliberately not the filtered ones). -/
def clientGroups (entries : List Entry) : List (String × Customer × List Entry) :=
  entries.foldl clientGroupsStep []

/-- One entry's contribution inside the per-client reduction of
`generateClientSummaries`: total, billable and non-billable seconds plus the
billable amount, which accrues `(duration/3600) * rate` only for billable
entries whose `rate` is present and strictly positive
(`entry.rate && entry.rate > 0`). -/
def clientFoldStep (now : Int) (acc : Int × Int × Int × ℚ) (e : Entry) :
    Int × Int × Int × ℚ :=
  let dur := reportsCalculateDuration e now
  if e.billable then
    (acc.1 + dur, acc.2.1 + dur, acc.2.2.1,
      match e.rate with
      | some r => if 0 < r then acc.2.2.2 + ((dur : ℚ) / 3600) * r else acc.2.2.2
      | none => acc.2.2.2)
  else
    (acc.1 + dur, acc.2.1, acc.2.2.1 + dur, acc.2.2.2)

/-- The per-client reduction of `generateClientSummaries`. -/
def clientFold (now : Int) (es : List Entry) : Int × Int × Int × ℚ :=
  es.foldl (clientFoldStep now) (0, 0, 0, 0)

/-- The summary record built for one client group. -/
def summariseClient (now : Int) (clientId : String) (c : Customer) (es : List Entry) :
    ClientSummary :=
  let t := clientFold now es
  { clientId := clientId
    clientName := c.name
    totalHours := round2 ((t.1 : ℚ) / 3600)
    billableHours := round2 ((t.2.1 : ℚ) / 3600)
    nonBillableHours := round2 ((t.2.2.1 : ℚ) / 3600)
    billableAmount := round2 t.2.2.2 }

/-- `generateClientSummaries` of `Reports.tsx`: group all entries by joined
customer, summarise each group, drop zero-hour clients, sort descending by
total hours (`b.totalHours - a.totalHours` comparator). -/
def generateClientSummaries (entries : List Entry) (now : Int) : List ClientSummary :=
  let summaries := (clientGroups entries).map (fun g => summariseClient now g.1 g.2.1 g.2.2)
  sortByKey (fun s => -s.totalHours) (summaries.filter (fun s => 0 < s.totalHours))

/-- The period view selector of `generatePeriodSummaries`. -/
inductive PeriodView
  | week
  | month
  | quarter
deriving DecidableEq, Repr

/-- `localization.ts` `startOfWeek` (Monday-anchored, `weekStartsOn: 1`),
under the UTC model: floor to the most recent Monday's midnight.
1970-01-01 was a Thursday, hence the `+ 4` day-of-week offset. -/
def startOfWeekMs (t : Int) : Int :=
  let day := Int.fdiv t msPerDay
  let dow := (day + 4) % 7
  msPerDay * (day - (dow + 6) % 7)

/-- The period bucket key of `generatePeriodSummaries`: week-start formatted
`yyyy-MM-dd`, month formatted `yyyy-MM`, or `"{year}-Q{quarter}"` with
`quarter = floor(getMonth()/3) + 1` (`getMonth()` is 0-based). -/
def periodKey (v : PeriodView) (e : Entry) (now : Int) : String :=
  let c := civilFromMs (reportsEntryDate e now)
  match v with
  | .week => formatYmd (civilFromMs (startOfWeekMs (reportsEntryDate e now)))
  | .month => toString c.y ++ "-" ++ pad2 c.m
  | .quarter => toString c.y ++ "-Q" ++ toString (Int.fdiv (c.m - 1) 3 + 1)

/-- Upsert into `periodGroups` (entries pushed in order). -/
def addToPeriodGroups (groups : List (String × List Entry)) (k : String) (e : Entry) :
    List (String × List Entry) :=
  match groups with
  | [] => [(k, [e])]
  | (k', es) :: rest =>
    if k' = k then (k', es ++ [e]) :: rest
    else (k', es) :: addToPeriodGroups rest k e

/-- The period-grouping pass of `generatePeriodSummaries` (over the filtered
entries). -/
def periodGroups (v : PeriodView) (now : Int) (entries : List Entry) :
    List (String × List Entry) :=
  entries.foldl (fun acc e => addToPeriodGroups acc (periodKey v e now) e) []

/-- `PeriodSummary` of `Reports.tsx`. -/
structure PeriodSummary where
  period : String
  totalHours : ℚ
  billableHours : ℚ
  nonBillableHours : ℚ
  billablePercentage : Int
deriving DecidableEq, Repr

/-- The display label of a period bucket: weeks as
`"Week of " ++ formatDate(parseISO(period))` (`dd/MM-yyyy`, Danish default),
months via `formatMonthYear(parseISO(period ++ "-01"))` (`MMM yyyy`, Danish),
quarters as the raw key.  Keys always parse back; `Option.elim`'s default is
inert. -/
def periodLabel (v : PeriodView) (k : String) : String :=
  match v with
  | .week =>
    "Week of " ++ (parseYmd k).elim k (fun c => pad2 c.d ++ "/" ++ pad2 c.m ++ "-" ++ toString c.y)
  | .month =>
    (parseYmd (k ++ "-01")).elim k (fun c => danishMonthAbbr c.m ++ " " ++ toString c.y)
  | .quarter => k

/-- The per-period reduction of `generatePeriodSummaries`: seconds totals,
two-decimal hours, and the billable percentage computed from the UNROUNDED
hour values with the `totalHours > 0` division guard. -/
def summarisePeriod (v : PeriodView) (now : Int) (k : String) (es : List Entry) :
    PeriodSummary :=
  let t := es.foldl
    (fun acc e =>
      let dur := reportsCalculateDuration e now
      (acc.1 + dur,
        acc.2.1 + (if e.billable then dur else 0),
        acc.2.2 + (if e.billable then 0 else dur)))
    ((0 : Int), (0 : Int), (0 : Int))
  let totalHours := (t.1 : ℚ) / 3600
  let billableHours := (t.2.1 : ℚ) / 3600
  { period := periodLabel v k
    totalHours := round2 totalHours
    billableHours := round2 billableHours
    nonBillableHours := round2 ((t.2.2 : ℚ) / 3600)
    billablePercentage := if 0 < totalHours then jsRound (billableHours / totalHours * 100) else 0 }

/-- `generatePeriodSummaries` of `Reports.tsx`: filter, bucket by period,
summarise, then sort by the DISPLAY label (`a.period.localeCompare(b.period)`;
within one period view all labels share a shape, so the Danish collation
agrees with code-unit order, modelled by the `String` linear order). -/
def generatePeriodSummaries (entries : List Entry) (f : ReportFilters) (v : PeriodView)
    (now : Int) : List PeriodSummary :=
  let groups := periodGroups v now (filterTimeEntries f now entries)
  sortByKey (fun s => s.period) (groups.map (fun g => summarisePeriod v now g.1 g.2))

/-- Claim C1 (amended): the three duration sites agree exactly when
`durationMinutes` is present and non-zero (JS-truthy) — each then resolves
`durationMinutes` minutes, i.e. the same `m * 60` seconds, for any reference
instant.  When `durationMinutes` is absent or zero the sites may disagree
(running entries and the ambient clock, whole-minute flooring, clamping). -/
theorem C1_duration_precedence_agreement (e : Entry) (now m : Int)
    (h : e.duration_minutes = some m) (hm : m ≠ 0) :
    reportsCalculateDuration e now = m * 60 ∧
    dashboardEntryMinutes e * 60 = m * 60 ∧
    timeEntriesEntryMinutes e * 60 = m * 60 := by
  simp [reportsCalculateDuration, dashboardEntryMinutes, timeEntriesEntryMinutes, h, hm]

/-- Witness for C1: a concrete entry with `duration_minutes = 90` resolves to
5400 seconds at every site. -/
theorem C1_duration_precedence_agreement_witness :
    reportsCalculateDuration
      { duration_minutes := some 90, duration := none, start_time := none,
        end_time := none, date := none, created_at := 0, billable := true,
        rate := none, customer_id := none, customer := none, task := none } 0 = 90 * 60 ∧
    dashboardEntryMinutes
      { duration_minutes := some 90, duration := none, start_time := none,
        end_time := none, date := none, created_at := 0, billable := true,
        rate := none, customer_id := none, customer := none, task := none } * 60 = 90 * 60 ∧
    timeEntriesEntryMinutes
      { duration_minutes := some 90, duration := none, start_time := none,
        end_time := none, date := none, created_at := 0, billable := true,
        rate := none, customer_id := none, customer := none, task := none } * 60 = 90 * 60 :=
  C1_duration_precedence_agreement _ 0 90 rfl (by decide)

/-- Counterexample to C1 as stated: a running entry (only `start_time` set,
started at epoch 0) evaluated at reference instant 3600000 ms resolves to
3600 seconds in `Reports.calculateDuration` but contributes 0 in both the
Dashboard and the entry-list highlight computations. -/
theorem C1_counterexample :
    reportsCalculateDuration
      { duration_minutes := none, duration := none, start_time := some 0,
        end_time := none, date := none, created_at := 0, billable := true,
        rate := none, customer_id := none, customer := none, task := none } 3600000 = 3600 ∧
    dashboardEntryMinutes
      { duration_minutes := none, duration := none, start_time := some 0,
        end_time := none, date := none, created_at := 0, billable := true,
        rate := none, customer_id := none, customer := none, task := none } * 60 = 0 ∧
    timeEntriesEntryMinutes
      { duration_minutes := none, duration := none, start_time := some 0,
        end_time := none, date := none, created_at := 0, billable := true,
        rate := none, customer_id := none, customer := none, task := none } * 60 = 0 ∧
    (3600 : Int) ≠ 0 := by
  refine ⟨by decide, by decide, by decide, by decide⟩

/-- Claim C2 (amended): the Dashboard and TimeEntries screens resolve the
effective date by `date` → `startTime` → `createdAt` and never fail, but
`Reports.tsx` uses `date` → `startTime` → the ambient current instant
(`new Date()`), not `createdAt`, at its filtering and bucketing sites. -/
theorem C2_effective_date_precedence (e : Entry) (now : Int) :
    dashboardGetEntryDate e = some ((e.date.or e.start_time).getD e.created_at) ∧
    timeEntriesGetEntryDate e = some ((e.date.or e.start_time).getD e.created_at) ∧
    (dashboardGetEntryDate e).isSome = true ∧
    reportsEntryDate e now = (e.date.or e.start_time).getD now := by
  cases hd : e.date <;> cases hs : e.start_time <;>
    simp [dashboardGetEntryDate, timeEntriesGetEntryDate, reportsEntryDate, hd, hs]

/-- Counterexample to C2 as stated: an entry with neither `date` nor
`startTime` and `createdAt = 5` resolves, in `Reports.tsx`, to the current
instant (here 99), not to `createdAt` as the Dashboard/TimeEntries resolvers
do. -/
theorem C2_counterexample :
    reportsEntryDate
      { duration_minutes := none, duration := none, start_time := none,
        end_time := none, date := none, created_at := 5, billable := true,
        rate := none, customer_id := none, customer := none, task := none } 99 = 99 ∧
    dashboardGetEntryDate
      { duration_minutes := none, duration := none, start_time := none,
        end_time := none, date := none, created_at := 5, billable := true,
        rate := none, customer_id := none, customer := none, task := none } = some 5 ∧
    (99 : Int) ≠ 5 := by
  refine ⟨by decide, by decide, by decide⟩

/-- Claim C3 (code bug): an entry whose `end_time` (epoch 0) precedes its
`start_time` (epoch 3600000 ms) resolves to −3600 seconds in
`Reports.calculateDuration` — the negative span is NOT clamped to 0 there
and flows into the report totals — while the Dashboard computation does
clamp it to 0. -/
theorem C3_negative_duration_not_clamped_in_reports :
    reportsCalculateDuration
      { duration_minutes := none, duration := none, start_time := some 3600000,
        end_time := some 0, date := none, created_at := 0, billable := true,
        rate := none, customer_id := none, customer := none, task := none } 0 = -3600 ∧
    dashboardEntryMinutes
      { duration_minutes := none, duration := none, start_time := some 3600000,
        end_time := some 0, date := none, created_at := 0, billable := true,
        rate := none, customer_id := none, customer := none, task := none } = 0 := by
  refine ⟨by decide, by decide⟩

/-- Claim C5 (amended): when `durationMinutes` is present and POSITIVE the
resolved duration is `durationMinutes * 60` seconds regardless of any
timestamps; a present `durationMinutes` of 0 is JS-falsy and falls through
to the timestamp rules instead of yielding 0. -/
theorem C5_duration_minutes_precedence (e : Entry) (now m : Int)
    (h : e.duration_minutes = some m) (hm : 0 < m) :
    reportsCalculateDuration e now = m * 60 := by
  have hm' : m ≠ 0 := by omega
  simp [reportsCalculateDuration, h, hm']

/-- Witness for C5: `durationMinutes = 120` with conflicting timestamps still
resolves to 7200 seconds. -/
theorem C5_duration_minutes_precedence_witness :
    reportsCalculateDuration
      { duration_minutes := some 120, duration := none, start_time := some 0,
        end_time := some 60000, date := none, created_at := 0, billable := true,
        rate := none, customer_id := none, customer := none, task := none } 0 = 120 * 60 :=
  C5_duration_minutes_precedence _ 0 120 rfl (by decide)

/-- Counterexample to C5 as stated: `durationMinutes = 0` is present and
parses to a non-negative number, yet the resolver falls through to the
timestamps and yields 3600 seconds instead of `0 * 60 = 0`. -/
theorem C5_counterexample :
    reportsCalculateDuration
      { duration_minutes := some 0, duration := none, start_time := some 0,
        end_time := some 3600000, date := none, created_at := 0, billable := true,
        rate := none, customer_id := none, customer := none, task := none } 0 = 3600 ∧
    (3600 : Int) ≠ 0 * 60 := by
  refine ⟨by decide, by decide⟩

/-- Membership is preserved by `insertByKey`. -/
theorem mem_insertByKey {α κ : Type} [LinearOrder κ] (key : α → κ) (x a : α) (l : List α) :
    a ∈ insertByKey key x l ↔ a = x ∨ a ∈ l := by
  induction l with
  | nil => simp [insertByKey]
  | cons y ys ih =>
    by_cases h : key x ≤ key y <;> simp [insertByKey, h, ih] <;> tauto

/-- Inserting into a key-sorted list keeps it key-sorted. -/
theorem pairwise_insertByKey {α κ : Type} [LinearOrder κ] (key : α → κ) (x : α) (l : List α)
    (h : l.Pairwise (fun a b => key a ≤ key b)) :
    (insertByKey key x l).Pairwise (fun a b => key a ≤ key b) := by
  induction l with
  | nil => simp [insertByKey]
  | cons y ys ih =>
    rcases List.pairwise_cons.mp h with ⟨hy, hys⟩
    by_cases hxy : key x ≤ key y
    · simp only [insertByKey, if_pos hxy]
      refine List.pairwise_cons.mpr ⟨?_, h⟩
      intro b hb
      rcases List.mem_cons.mp hb with rfl | hb
      · exact hxy
      · exact le_trans hxy (hy b hb)
    · simp only [insertByKey, if_neg hxy]
      refine List.pairwise_cons.mpr ⟨?_, ih hys⟩
      intro b hb
      rcases (mem_insertByKey key x b ys).mp hb with rfl | hb
      · exact le_of_not_le hxy
      · exact hy b hb

/-- `sortByKey` produces a list sorted ascending by its key. -/
theorem pairwise_sortByKey {α κ : Type} [LinearOrder κ] (key : α → κ) (l : List α) :
    (sortByKey key l).Pairwise (fun a b => key a ≤ key b) := by
  induction l with
  | nil => simp [sortByKey]
  | cons x xs ih =>
    show (insertByKey key x (sortByKey key xs)).Pairwise _
    exact pairwise_insertByKey key x _ ih

/-- Claim C9: whenever the filter configuration's project field is a non-empty
string, `filterTimeEntries` rejects every entry — the project predicate
returns `false` unconditionally — so the filtered set is empty. -/
theorem C9_project_filter_rejects_all (f : ReportFilters) (now : Int)
    (entries : List Entry) (h : f.project ≠ "") :
    filterTimeEntries f now entries = [] := by
  have hp : decide (f.project = "") = false := by simp [h]
  show List.filter _ entries = []
  simp [hp]

/-- Witness for C9: a concrete passing-looking entry is still rejected under
an active project filter. -/
theorem C9_project_filter_rejects_all_witness :
    filterTimeEntries
      { dateFrom := none, dateTo := none, customer := "", project := "p1",
        groupBy := GroupBy.customer, billableOnly := false } 0
      [{ duration_minutes := some 60, duration := none, start_time := none,
         end_time := none, date := some 0, created_at := 0, billable := true,
         rate := none, customer_id := some "c1",
         customer := some { id := "c1", name := "Acme" }, task := none }] = [] :=
  C9_project_filter_rejects_all _ 0 _ (by decide)

/-- Claim C6: date-range membership is inclusive at the start-of-day-normalized
`from` bound and at the end-of-day-normalized `to` bound (the whole `to` day is
included), and with `to` absent the range is open-ended forward; the
Dashboard's `isDateInRange` is likewise inclusive at both ends and reduces to
`start ≤ date` when `end` is omitted. -/
theorem C6_range_membership (fm tm s e d x : Int) :
    (x = startOfDayMs fm → reportsDateOk (some fm) none x = true) ∧
    (x = endOfDayMs tm → reportsDateOk none (some tm) x = true) ∧
    (startOfDayMs fm ≤ x → x ≤ endOfDayMs tm → reportsDateOk (some fm) (some tm) x = true) ∧
    (startOfDayMs fm ≤ x → reportsDateOk (some fm) none x = true) ∧
    (s ≤ e → isDateInRange (some s) s (some e) = true) ∧
    (s ≤ e → isDateInRange (some e) s (some e) = true) ∧
    (isDateInRange (some d) s none = decide (s ≤ d)) := by
  refine ⟨?_, ?_, ?_, ?_, ?_, ?_, ?_⟩
  · intro hx
    simp [reportsDateOk]
    omega
  · intro hx
    simp [reportsDateOk]
    omega
  · intro h1 h2
    simp [reportsDateOk]
    omega
  · intro h1
    simp [reportsDateOk]
    omega
  · intro h1
    by_cases he : s = e <;> simp [isDateInRange, he] <;> omega
  · intro h1
    by_cases he : s = e <;> simp [isDateInRange, he] <;> omega
  · by_cases hsd : s ≤ d
    · have : s < d ∨ d = s := by omega
      simp [isDateInRange, hsd]
      omega
    · simp [isDateInRange, hsd]
      omega

/-- Witness for C6: concrete boundary instants of the epoch day (and of the
range 5..9) are all admitted, and the open-ended form admits a later instant. -/
theorem C6_range_membership_witness :
    reportsDateOk (some 0) none 0 = true ∧
    reportsDateOk none (some 0) 86399999 = true ∧
    reportsDateOk (some 0) (some 86400000) 43200000 = true ∧
    reportsDateOk (some 0) none 999999999 = true ∧
    isDateInRange (some 5) 5 (some 9) = true ∧
    isDateInRange (some 9) 5 (some 9) = true ∧
    isDateInRange (some 7) 5 none = decide ((5 : Int) ≤ 7) :=
  ⟨(C6_range_membership 0 0 5 9 7 0).1 (by decide),
   (C6_range_membership 0 0 5 9 7 86399999).2.1 (by decide),
   (C6_range_membership 0 86400000 5 9 7 43200000).2.2.1 (by decide) (by decide),
   (C6_range_membership 0 0 5 9 7 999999999).2.2.2.1 (by decide),
   (C6_range_membership 0 0 5 9 7 0).2.2.2.2.1 (by decide),
   (C6_range_membership 0 0 5 9 7 0).2.2.2.2.2.1 (by decide),
   (C6_range_membership 0 0 5 9 7 0).2.2.2.2.2.2⟩

/-- A day-grouped entry dated 2023-12-31 (explicit one-hour duration). -/
def dayEntry2023 : Entry :=
  { duration_minutes := some 60, duration := none, start_time := none,
    end_time := none, date := some (msFromCivil ⟨2023, 12, 31⟩), created_at := 0,
    billable := true, rate := none, customer_id := none, customer := none, task := none }

/-- A day-grouped entry dated 2024-01-01 (explicit one-hour duration). -/
def dayEntry2024 : Entry :=
  { duration_minutes := some 60, duration := none, start_time := none,
    end_time := none, date := some (msFromCivil ⟨2024, 1, 1⟩), created_at := 0,
    billable := true, rate := none, customer_id := none, customer := none, task := none }

/-- An all-pass filter configuration grouping by day. -/
def dayGroupCfg : ReportFilters :=
  { dateFrom := none, dateTo := none, customer := "", project := "",
    groupBy := GroupBy.day, billableOnly := false }

/-- Claim C4 (amended): grouping by customer/task (or project) sorts the rows
descending by total seconds; grouping by day sorts them ascending by the
`new Date` parse of the `dd MMM` display label — a YEAR-BLIND (and
locale-sensitive) key, so the order is chronological only within a single
year, not in general. -/
theorem C4_report_row_ordering (entries : List Entry) (f : ReportFilters) (now : Int) :
    (f.groupBy ≠ GroupBy.day →
      (generateReportData entries f now).Pairwise (fun a b => b.seconds ≤ a.seconds)) ∧
    (f.groupBy = GroupBy.day →
      (generateReportData entries f now).Pairwise
        (fun a b => (jsParseDDMMM a.name).getD 0 ≤ (jsParseDDMMM b.name).getD 0)) := by
  constructor
  · intro hnd
    have h := pairwise_sortByKey (fun r : ReportRow => -r.seconds)
      ((groupEntries f.groupBy now (filterTimeEntries f now entries)).map (toReportRow f.groupBy))
    simp only [generateReportData, if_neg hnd]
    exact h.imp (fun hab => by omega)
  · intro hd
    simp only [generateReportData, if_pos hd]
    exact pairwise_sortByKey _ _

/-- Witness for C4: concrete customer-grouped rows come out descending by
seconds, and concrete day-grouped rows come out ascending by the parsed
label key. -/
theorem C4_report_row_ordering_witness :
    (generateReportData [dayEntry2023, dayEntry2024]
      { dayGroupCfg with groupBy := GroupBy.customer } 0).Pairwise
        (fun a b => b.seconds ≤ a.seconds) ∧
    (generateReportData [dayEntry2023, dayEntry2024] dayGroupCfg 0).Pairwise
        (fun a b => (jsParseDDMMM a.name).getD 0 ≤ (jsParseDDMMM b.name).getD 0) :=
  ⟨(C4_report_row_ordering [dayEntry2023, dayEntry2024]
      { dayGroupCfg with groupBy := GroupBy.customer } 0).1 (by decide),
   (C4_report_row_ordering [dayEntry2023, dayEntry2024] dayGroupCfg 0).2 rfl⟩

/-- Counterexample to C4 as stated: with entries dated 2023-12-31 and
2024-01-01 the day-grouped rows come out `["01 jan.", "31 dec."]` — the row
whose group's effective date is LATER (2024-01-01, labelled "01 jan.") is
listed first, because the sort parses the year-less `dd MMM` labels — so the
day rows are not in ascending chronological order of the group's effective
date. -/
theorem C4_counterexample :
    (generateReportData [dayEntry2023, dayEntry2024] dayGroupCfg 0).map ReportRow.name =
      ["01 jan.", "31 dec."] ∧
    formatDDMMM (civilFromMs (reportsEntryDate dayEntry2024 0)) = "01 jan." ∧
    formatDDMMM (civilFromMs (reportsEntryDate dayEntry2023 0)) = "31 dec." ∧
    reportsEntryDate dayEntry2023 0 < reportsEntryDate dayEntry2024 0 := by
  refine ⟨by decide, by decide, by decide, by decide⟩

/-- The property of appearing in some group of a client-group list (and hence
in the corresponding `ClientSummary`'s underlying entry set). -/
def inSomeClientGroup (x : Entry) (groups : List (String × Customer × List Entry)) : Prop :=
  ∃ g ∈ groups, x ∈ g.2.2

/-- Entries found in the groups after an upsert were already there or are the
upserted entry. -/
theorem inSomeClientGroup_addTo (x : Entry) (groups : List (String × Customer × List Entry))
    (c : Customer) (e' : Entry)
    (h : inSomeClientGroup x (addToClientGroups groups c e')) :
    inSomeClientGroup x groups ∨ x = e' := by
  induction groups with
  | nil =>
    rcases h with ⟨g, hg, hx⟩
    simp only [addToClientGroups, List.mem_singleton] at hg
    subst hg
    simp at hx
    exact Or.inr hx
  | cons p rest ih =>
    obtain ⟨k, c', es⟩ := p
    by_cases hk : k = c.id
    · rcases h with ⟨g, hg, hx⟩
      simp only [addToClientGroups, if_pos hk, List.mem_cons] at hg
      rcases hg with rfl | hg
      · simp only at hx
        rcases List.mem_append.mp hx with hx | hx
        · exact Or.inl ⟨(k, c', es), List.mem_cons_self _ _, hx⟩
        · exact Or.inr (List.mem_singleton.mp hx)
      · exact Or.inl ⟨g, List.mem_cons_of_mem _ hg, hx⟩
    · rcases h with ⟨g, hg, hx⟩
      simp only [addToClientGroups, if_neg hk, List.mem_cons] at hg
      rcases hg with rfl | hg
      · exact Or.inl ⟨(k, c', es), List.mem_cons_self _ _, hx⟩
      · rcases ih ⟨g, hg, hx⟩ with ⟨g', hg', hx'⟩ | hx'
        · exact Or.inl ⟨g', List.mem_cons_of_mem _ hg', hx'⟩
        · exact Or.inr hx'

/-- Any entry found in a client group after folding the grouping step over a
list was in the accumulator, or comes from the list and carries both a joined
customer record and a truthy `customer_id`. -/
theorem clientGroups_foldl_mem (l : List Entry)
    (acc : List (String × Customer × List Entry)) (x : Entry)
    (h : inSomeClientGroup x (l.foldl clientGroupsStep acc)) :
    inSomeClientGroup x acc ∨
      (x ∈ l ∧ x.customer.isSome = true ∧ ∃ cid, x.customer_id = some cid ∧ cid ≠ "") := by
  induction l generalizing acc with
  | nil => exact Or.inl h
  | cons e es ih =>
    simp only [List.foldl_cons] at h
    rcases ih (clientGroupsStep acc e) h with h' | ⟨hmem, hgood⟩
    · rcases hc : e.customer with _ | c <;> rcases hcid : e.customer_id with _ | cid
      · rw [show clientGroupsStep acc e = acc from by simp [clientGroupsStep, hc, hcid]] at h'
        exact Or.inl h'
      · rw [show clientGroupsStep acc e = acc from by simp [clientGroupsStep, hc, hcid]] at h'
        exact Or.inl h'
      · rw [show clientGroupsStep acc e = acc from by simp [clientGroupsStep, hc, hcid]] at h'
        exact Or.inl h'
      · by_cases hne : cid = ""
        · rw [show clientGroupsStep acc e = acc from by
            simp [clientGroupsStep, hc, hcid, hne]] at h'
          exact Or.inl h'
        · rw [show clientGroupsStep acc e = addToClientGroups acc c e from by
            simp [clientGroupsStep, hc, hcid, hne]] at h'
          rcases inSomeClientGroup_addTo x acc c e h' with h'' | rfl
          · exact Or.inl h''
          · exact Or.inr ⟨List.mem_cons_self _ _, by simp [hc], cid, hcid, hne⟩
    · exact Or.inr ⟨List.mem_cons_of_mem _ hmem, hgood⟩

/-- Claim C10 (amended): an entry missing its joined customer record or its
`customer_id` joins no client group, hence appears in no `ClientSummary`; the
by-dimension customer grouping buckets an entry with NO JOINED customer under
`"Unknown Customer"`, while an entry that has a joined customer (even with a
missing `customer_id`) buckets under that customer's name. -/
theorem C10_client_summary_exclusion (entries : List Entry) (x : Entry) (now : Int)
    (c : Customer) (hmiss : x.customer = none ∨ x.customer_id = none) :
    ¬ inSomeClientGroup x (clientGroups entries) ∧
    (x.customer = none → groupKey GroupBy.customer x now = "Unknown Customer") ∧
    (x.customer = some c → c.name ≠ "" → groupKey GroupBy.customer x now = c.name) := by
  refine ⟨?_, ?_, ?_⟩
  · intro h
    rcases clientGroups_foldl_mem entries [] x h with h' | ⟨_, hsome, cid, hcid, _⟩
    · rcases h' with ⟨g, hg, _⟩
      simp at hg
    · rcases hmiss with hm | hm
      · rw [hm] at hsome
        simp at hsome
      · rw [hm] at hcid
        cases hcid
  · intro hc
    simp [groupKey, hc]
  · intro hc hname
    simp [groupKey, hc, hname]

/-- An entry with a joined customer record but no `customer_id`. -/
def noIdEntry : Entry :=
  { duration_minutes := some 60, duration := none, start_time := none,
    end_time := none, date := some 0, created_at := 0, billable := true,
    rate := none, customer_id := none,
    customer := some { id := "c1", name := "Acme" }, task := none }

/-- Witness for C10: the concrete id-less entry joins no client group of its
own singleton entry set, and its by-dimension key is its customer's name. -/
theorem C10_client_summary_exclusion_witness :
    ¬ inSomeClientGroup noIdEntry (clientGroups [noIdEntry]) ∧
    groupKey GroupBy.customer noIdEntry 0 = "Acme" :=
  ⟨(C10_client_summary_exclusion [noIdEntry] noIdEntry 0
      { id := "c1", name := "Acme" } (Or.inr rfl)).1,
   (C10_client_summary_exclusion [noIdEntry] noIdEntry 0
      { id := "c1", name := "Acme" } (Or.inr rfl)).2.2 rfl (by decide)⟩

/-- Counterexample to C10 as stated: an entry with a joined customer named
"Acme" but a null `customer_id` is excluded from every client group, yet the
by-dimension grouping buckets it under "Acme", NOT under the
"Unknown Customer" sentinel the claim asserts for every such entry. -/
theorem C10_counterexample :
    groupKey GroupBy.customer noIdEntry 0 = "Acme" ∧
    "Acme" ≠ "Unknown Customer" ∧
    noIdEntry.customer_id = none ∧
    clientGroups [noIdEntry] = [] := by
  refine ⟨by decide, by decide, rfl, rfl⟩

/-- The spec's rendering of a client's total seconds: the plain sum of
resolved durations. -/
def specClientTotalSeconds (now : Int) : List Entry → Int
  | [] => 0
  | e :: es => reportsCalculateDuration e now + specClientTotalSeconds now es

/-- The spec's rendering of a client's billable seconds: the sum of resolved
durations over billable entries. -/
def specClientBillableSeconds (now : Int) : List Entry → Int
  | [] => 0
  | e :: es =>
    (if e.billable then reportsCalculateDuration e now else 0) +
      specClientBillableSeconds now es

/-- The spec's rendering of a client's non-billable seconds. -/
def specClientNonBillableSeconds (now : Int) : List Entry → Int
  | [] => 0
  | e :: es =>
    (if e.billable then 0 else reportsCalculateDuration e now) +
      specClientNonBillableSeconds now es

/-- The spec's rendering of a client's billable amount: the sum over billable
entries of `(durationSeconds/3600) * rate`, an absent or non-positive rate
contributing 0. -/
def specClientBillableAmount (now : Int) : List Entry → ℚ
  | [] => 0
  | e :: es =>
    (match e.rate with
     | some r =>
       if e.billable = true ∧ 0 < r then ((reportsCalculateDuration e now : ℚ) / 3600) * r
       else 0
     | none => 0) + specClientBillableAmount now es

/-- The client reduction, started from any accumulator, lands on the
accumulator plus the four spec-side sums. -/
theorem clientFold_go (now : Int) (es : List Entry) (acc : Int × Int × Int × ℚ) :
    es.foldl (clientFoldStep now) acc =
      (acc.1 + specClientTotalSeconds now es,
       acc.2.1 + specClientBillableSeconds now es,
       acc.2.2.1 + specClientNonBillableSeconds now es,
       acc.2.2.2 + specClientBillableAmount now es) := by
  induction es generalizing acc with
  | nil =>
    simp [specClientTotalSeconds, specClientBillableSeconds,
      specClientNonBillableSeconds, specClientBillableAmount]
  | cons e es ih =>
    rw [List.foldl_cons, ih]
    rcases hb : e.billable <;> rcases hr : e.rate with _ | r
    · simp only [clientFoldStep, hb, hr, specClientTotalSeconds, specClientBillableSeconds,
        specClientNonBillableSeconds, specClientBillableAmount, Bool.false_eq_true, if_false,
        false_and, Prod.mk.injEq]
      refine ⟨by ring, by ring, by ring, by ring⟩
    · simp only [clientFoldStep, hb, hr, specClientTotalSeconds, specClientBillableSeconds,
        specClientNonBillableSeconds, specClientBillableAmount, Bool.false_eq_true, if_false,
        false_and, Prod.mk.injEq]
      refine ⟨by ring, by ring, by ring, by ring⟩
    · simp only [clientFoldStep, hb, hr, specClientTotalSeconds, specClientBillableSeconds,
        specClientNonBillableSeconds, specClientBillableAmount, if_true, true_and,
        Prod.mk.injEq]
      refine ⟨by ring, by ring, by ring, by ring⟩
    · by_cases hrp : 0 < r
      · simp only [clientFoldStep, hb, hr, specClientTotalSeconds, specClientBillableSeconds,
          specClientNonBillableSeconds, specClientBillableAmount, if_true, true_and,
          if_pos hrp, Prod.mk.injEq]
        refine ⟨by ring, by ring, by ring, by ring⟩
      · simp only [clientFoldStep, hb, hr, specClientTotalSeconds, specClientBillableSeconds,
          specClientNonBillableSeconds, specClientBillableAmount, if_true, true_and,
          if_neg hrp, Prod.mk.injEq]
        refine ⟨by ring, by ring, by ring, by ring⟩

/-- The floor of one half. -/
theorem floor_half_q : ⌊(1/2 : ℚ)⌋ = 0 := by
  rw [Int.floor_eq_zero_iff, Set.mem_Ico]
  norm_num

/-- Two-decimal rounding fixes integer values. -/
theorem round2_intCast (n : Int) : round2 ((n : ℚ)) = (n : ℚ) := by
  unfold round2 jsRound
  have h : ((n : ℚ) * 100 + 1/2) = ((n * 100 : Int) : ℚ) + 1/2 := by
    push_cast
    ring
  rw [h, Int.floor_int_add, floor_half_q]
  push_cast
  ring

/-- The scenario entry of the spec: `rate=500, durationMinutes=120,
billable=true`. -/
def scenarioEntry : Entry :=
  { duration_minutes := some 120, duration := none, start_time := none,
    end_time := none, date := none, created_at := 0, billable := true,
    rate := some 500, customer_id := some "c1",
    customer := some { id := "c1", name := "A" }, task := none }

/-- Claim C7: each client summary's billable amount is the (two-decimal
rounding of the) sum over that client's billable entries of
`(durationSeconds/3600) * rate`, absent or non-positive rates contributing 0
while the same entries' seconds still count toward billable hours; the
concrete scenario `rate=500, durationMinutes=120, billable=true` yields a
billable amount of 1000. -/
theorem C7_billable_amount (now : Int) (cid : String) (c : Customer) (es : List Entry) :
    (summariseClient now cid c es).billableAmount =
      round2 (specClientBillableAmount now es) ∧
    (summariseClient now cid c es).billableHours =
      round2 ((specClientBillableSeconds now es : ℚ) / 3600) ∧
    (summariseClient 0 "c1" { id := "c1", name := "A" } [scenarioEntry]).billableAmount
      = 1000 := by
  refine ⟨?_, ?_, ?_⟩
  · simp [summariseClient, clientFold, clientFold_go]
  · simp [summariseClient, clientFold, clientFold_go]
  · have hval : specClientBillableAmount 0 [scenarioEntry] = ((1000 : Int) : ℚ) := by
      simp [specClientBillableAmount, scenarioEntry, reportsCalculateDuration]
      norm_num
    calc (summariseClient 0 "c1" { id := "c1", name := "A" } [scenarioEntry]).billableAmount
        = round2 (specClientBillableAmount 0 [scenarioEntry]) := by
          have h := clientFold_go 0 [scenarioEntry] (0, 0, 0, 0)
          simp only [summariseClient, clientFold, h, zero_add]
      _ = round2 ((1000 : Int) : ℚ) := by rw [hval]
      _ = ((1000 : Int) : ℚ) := round2_intCast 1000
      _ = 1000 := by norm_num

/-- An entry whose resolved duration cannot read the ambient clock: a truthy
`durationMinutes`, or no `startTime` at all, or a present `endTime` (i.e. not
a running timer). -/
def durationNowFree (e : Entry) : Prop :=
  (∃ m, e.duration_minutes = some m ∧ m ≠ 0) ∨
    e.start_time = none ∨ e.end_time.isSome = true

/-- An entry whose effective date cannot read the ambient clock: a present
`date` or a present `startTime`. -/
def dateNowFree (e : Entry) : Prop :=
  e.date.isSome = true ∨ e.start_time.isSome = true

/-- `calculateDuration` ignores the reference instant on now-free entries. -/
theorem reportsCalculateDuration_nowFree (e : Entry) (h : durationNowFree e) (n₁ n₂ : Int) :
    reportsCalculateDuration e n₁ = reportsCalculateDuration e n₂ := by
  rcases h with ⟨m, hm, hm0⟩ | hs | ht
  · simp [reportsCalculateDuration, hm, hm0]
  · rcases hdm : e.duration_minutes with _ | m <;>
      simp [reportsCalculateDuration, hdm, hs]
  · obtain ⟨t, ht⟩ := Option.isSome_iff_exists.mp ht
    rcases hdm : e.duration_minutes with _ | m <;> rcases hs : e.start_time with _ | s <;>
      simp [reportsCalculateDuration, hdm, hs, ht]

/-- The Reports effective date ignores the reference instant on now-free
entries. -/
theorem reportsEntryDate_nowFree (e : Entry) (h : dateNowFree e) (n₁ n₂ : Int) :
    reportsEntryDate e n₁ = reportsEntryDate e n₂ := by
  rcases h with hd | hs
  · obtain ⟨d, hd⟩ := Option.isSome_iff_exists.mp hd
    simp [reportsEntryDate, hd]
  · obtain ⟨s, hs⟩ := Option.isSome_iff_exists.mp hs
    rcases hd : e.date with _ | d <;> simp [reportsEntryDate, hd, hs]

/-- Group keys ignore the reference instant on now-free entries. -/
theorem groupKey_nowFree (g : GroupBy) (e : Entry) (h : dateNowFree e) (n₁ n₂ : Int) :
    groupKey g e n₁ = groupKey g e n₂ := by
  cases g <;> simp [groupKey, reportsEntryDate_nowFree e h n₁ n₂]

/-- Filtering ignores the reference instant when every entry is date-now-free. -/
theorem filterTimeEntries_nowFree (f : ReportFilters) (entries : List Entry)
    (h : ∀ e ∈ entries, dateNowFree e) (n₁ n₂ : Int) :
    filterTimeEntries f n₁ entries = filterTimeEntries f n₂ entries := by
  unfold filterTimeEntries
  apply List.filter_congr
  intro e he
  rw [reportsEntryDate_nowFree e (h e he) n₁ n₂]

/-- The grouping fold ignores the reference instant on now-free entries. -/
theorem groupEntries_go_nowFree (g : GroupBy) (n₁ n₂ : Int) (l : List Entry) :
    ∀ acc, (∀ e ∈ l, durationNowFree e ∧ dateNowFree e) →
      l.foldl (fun a e =>
        bumpGroup a (groupKey g e n₁) (reportsCalculateDuration e n₁) e.billable) acc =
      l.foldl (fun a e =>
        bumpGroup a (groupKey g e n₂) (reportsCalculateDuration e n₂) e.billable) acc := by
  induction l with
  | nil =>
    intro acc _
    rfl
  | cons e es ih =>
    intro acc h
    simp only [List.foldl_cons]
    rw [groupKey_nowFree g e (h e (List.mem_cons_self _ _)).2 n₁ n₂,
        reportsCalculateDuration_nowFree e (h e (List.mem_cons_self _ _)).1 n₁ n₂]
    exact ih _ (fun e' he' => h e' (List.mem_cons_of_mem _ he'))

/-- The client reduction ignores the reference instant on now-free entries. -/
theorem clientFold_go_nowFree (n₁ n₂ : Int) (es : List Entry) :
    ∀ acc, (∀ e ∈ es, durationNowFree e) →
      es.foldl (clientFoldStep n₁) acc = es.foldl (clientFoldStep n₂) acc := by
  induction es with
  | nil =>
    intro acc _
    rfl
  | cons e es ih =>
    intro acc h
    simp only [List.foldl_cons]
    have hd := reportsCalculateDuration_nowFree e (h e (List.mem_cons_self _ _)) n₁ n₂
    rw [show clientFoldStep n₁ acc e = clientFoldStep n₂ acc e from by
      simp only [clientFoldStep, hd]]
    exact ih _ (fun e' he' => h e' (List.mem_cons_of_mem _ he'))

/-- Client summaries ignore the reference instant on now-free entries. -/
theorem generateClientSummaries_nowFree (entries : List Entry)
    (h : ∀ e ∈ entries, durationNowFree e) (n₁ n₂ : Int) :
    generateClientSummaries entries n₁ = generateClientSummaries entries n₂ := by
  unfold generateClientSummaries
  have hmap : (clientGroups entries).map (fun g => summariseClient n₁ g.1 g.2.1 g.2.2) =
      (clientGroups entries).map (fun g => summariseClient n₂ g.1 g.2.1 g.2.2) := by
    apply List.map_congr_left
    intro g hg
    have hsub : ∀ e ∈ g.2.2, durationNowFree e := by
      intro e he
      rcases clientGroups_foldl_mem entries [] e ⟨g, hg, he⟩ with h' | ⟨hmem, _⟩
      · rcases h' with ⟨g', hg', _⟩
        simp at hg'
      · exact h e hmem
    unfold summariseClient clientFold
    rw [clientFold_go_nowFree n₁ n₂ g.2.2 (0, 0, 0, 0) hsub]
  rw [hmap]

/-- Membership of an entry in some period bucket. -/
def inSomePeriodGroup (x : Entry) (groups : List (String × List Entry)) : Prop :=
  ∃ g ∈ groups, x ∈ g.2

/-- Entries found after a period-bucket upsert were already there or are the
upserted entry. -/
theorem inSomePeriodGroup_addTo (x : Entry) (groups : List (String × List Entry))
    (k : String) (e' : Entry) (h : inSomePeriodGroup x (addToPeriodGroups groups k e')) :
    inSomePeriodGroup x groups ∨ x = e' := by
  induction groups with
  | nil =>
    rcases h with ⟨g, hg, hx⟩
    simp only [addToPeriodGroups, List.mem_singleton] at hg
    subst hg
    simp at hx
    exact Or.inr hx
  | cons p rest ih =>
    obtain ⟨k', es⟩ := p
    by_cases hk : k' = k
    · rcases h with ⟨g, hg, hx⟩
      simp only [addToPeriodGroups, if_pos hk, List.mem_cons] at hg
      rcases hg with rfl | hg
      · simp only at hx
        rcases List.mem_append.mp hx with hx | hx
        · exact Or.inl ⟨(k', es), List.mem_cons_self _ _, hx⟩
        · exact Or.inr (List.mem_singleton.mp hx)
      · exact Or.inl ⟨g, List.mem_cons_of_mem _ hg, hx⟩
    · rcases h with ⟨g, hg, hx⟩
      simp only [addToPeriodGroups, if_neg hk, List.mem_cons] at hg
      rcases hg with rfl | hg
      · exact Or.inl ⟨(k', es), List.mem_cons_self _ _, hx⟩
      · rcases ih ⟨g, hg, hx⟩ with ⟨g', hg', hx'⟩ | hx'
        · exact Or.inl ⟨g', List.mem_cons_of_mem _ hg', hx'⟩
        · exact Or.inr hx'

/-- Entries inside the period buckets come from the bucketed list. -/
theorem periodGroups_foldl_mem (v : PeriodView) (now : Int) (l : List Entry)
    (x : Entry) :
    ∀ acc, inSomePeriodGroup x
        (l.foldl (fun a e => addToPeriodGroups a (periodKey v e now) e) acc) →
      inSomePeriodGroup x acc ∨ x ∈ l := by
  induction l with
  | nil =>
    intro acc h
    exact Or.inl h
  | cons e es ih =>
    intro acc h
    simp only [List.foldl_cons] at h
    rcases ih _ h with h' | hmem
    · rcases inSomePeriodGroup_addTo x acc (periodKey v e now) e h' with h'' | rfl
      · exact Or.inl h''
      · exact Or.inr (List.mem_cons_self _ _)
    · exact Or.inr (List.mem_cons_of_mem _ hmem)

/-- Period keys ignore the reference instant on now-free entries. -/
theorem periodKey_nowFree (v : PeriodView) (e : Entry) (h : dateNowFree e) (n₁ n₂ : Int) :
    periodKey v e n₁ = periodKey v e n₂ := by
  cases v <;> simp [periodKey, reportsEntryDate_nowFree e h n₁ n₂]

/-- The period-bucketing fold ignores the reference instant on now-free
entries. -/
theorem periodGroups_go_nowFree (v : PeriodView) (n₁ n₂ : Int) (l : List Entry) :
    ∀ acc, (∀ e ∈ l, dateNowFree e) →
      l.foldl (fun a e => addToPeriodGroups a (periodKey v e n₁) e) acc =
      l.foldl (fun a e => addToPeriodGroups a (periodKey v e n₂) e) acc := by
  induction l with
  | nil =>
    intro acc _
    rfl
  | cons e es ih =>
    intro acc h
    simp only [List.foldl_cons]
    rw [periodKey_nowFree v e (h e (List.mem_cons_self _ _)) n₁ n₂]
    exact ih _ (fun e' he' => h e' (List.mem_cons_of_mem _ he'))

/-- The per-period totals fold ignores the reference instant on now-free
entries. -/
theorem periodFold_nowFree (n₁ n₂ : Int) (es : List Entry) :
    ∀ acc : Int × Int × Int, (∀ e ∈ es, durationNowFree e) →
      es.foldl (fun acc e =>
        let dur := reportsCalculateDuration e n₁
        (acc.1 + dur, acc.2.1 + (if e.billable then dur else 0),
          acc.2.2 + (if e.billable then 0 else dur))) acc =
      es.foldl (fun acc e =>
        let dur := reportsCalculateDuration e n₂
        (acc.1 + dur, acc.2.1 + (if e.billable then dur else 0),
          acc.2.2 + (if e.billable then 0 else dur))) acc := by
  induction es with
  | nil =>
    intro acc _
    rfl
  | cons e es ih =>
    intro acc h
    simp only [List.foldl_cons]
    rw [reportsCalculateDuration_nowFree e (h e (List.mem_cons_self _ _)) n₁ n₂]
    exact ih _ (fun e' he' => h e' (List.mem_cons_of_mem _ he'))

/-- Period summaries of one bucket ignore the reference instant on now-free
entries. -/
theorem summarisePeriod_nowFree (v : PeriodView) (k : String) (es : List Entry)
    (h : ∀ e ∈ es, durationNowFree e) (n₁ n₂ : Int) :
    summarisePeriod v n₁ k es = summarisePeriod v n₂ k es := by
  unfold summarisePeriod
  rw [periodFold_nowFree n₁ n₂ es (0, 0, 0) h]

/-- The period-summary pipeline ignores the reference instant when every
entry is now-free. -/
theorem generatePeriodSummaries_nowFree (entries : List Entry) (f : ReportFilters)
    (v : PeriodView) (h : ∀ e ∈ entries, durationNowFree e ∧ dateNowFree e) (n₁ n₂ : Int) :
    generatePeriodSummaries entries f v n₁ = generatePeriodSummaries entries f v n₂ := by
  unfold generatePeriodSummaries
  rw [filterTimeEntries_nowFree f entries (fun e he => (h e he).2) n₁ n₂]
  have hfsub : ∀ e ∈ filterTimeEntries f n₂ entries, durationNowFree e ∧ dateNowFree e :=
    fun e he => h e (List.mem_of_mem_filter he)
  unfold periodGroups
  rw [periodGroups_go_nowFree v n₁ n₂ (filterTimeEntries f n₂ entries) []
      (fun e he => (hfsub e he).2)]
  have hmap : (List.foldl (fun a e => addToPeriodGroups a (periodKey v e n₂) e) []
        (filterTimeEntries f n₂ entries)).map (fun g => summarisePeriod v n₁ g.1 g.2) =
      (List.foldl (fun a e => addToPeriodGroups a (periodKey v e n₂) e) []
        (filterTimeEntries f n₂ entries)).map (fun g => summarisePeriod v n₂ g.1 g.2) := by
    apply List.map_congr_left
    intro g hg
    apply summarisePeriod_nowFree
    intro e he
    rcases periodGroups_foldl_mem v n₂ (filterTimeEntries f n₂ entries) e [] ⟨g, hg, he⟩ with
      h' | hmem
    · rcases h' with ⟨g', hg', _⟩
      simp at hg'
    · exact (hfsub e hmem).1
  simp only [hmap]

/-- Claim C8 (amended): the report computation is deterministic in entries,
filter configuration AND the reference instant; in particular, when no entry
relies on the ambient clock (no running timer contributing elapsed time, no
entry whose effective date falls back to `new Date()`), the report rows,
period summaries and client summaries are independent of when the computation
runs.  Without that proviso the outputs DO depend on the current instant. -/
theorem C8_report_determinism (entries : List Entry) (f : ReportFilters) (v : PeriodView)
    (n₁ n₂ : Int) (h : ∀ e ∈ entries, durationNowFree e ∧ dateNowFree e) :
    generateReportData entries f n₁ = generateReportData entries f n₂ ∧
    generatePeriodSummaries entries f v n₁ = generatePeriodSummaries entries f v n₂ ∧
    generateClientSummaries entries n₁ = generateClientSummaries entries n₂ := by
  refine ⟨?_, generatePeriodSummaries_nowFree entries f v h n₁ n₂,
    generateClientSummaries_nowFree entries (fun e he => (h e he).1) n₁ n₂⟩
  unfold generateReportData
  rw [filterTimeEntries_nowFree f entries (fun e he => (h e he).2) n₁ n₂]
  unfold groupEntries
  rw [groupEntries_go_nowFree f.groupBy n₁ n₂ (filterTimeEntries f n₂ entries) []
      (fun e he => h e (List.mem_of_mem_filter he))]

/-- A now-independent entry (explicit duration, explicit date). -/
def fixedEntry : Entry :=
  { duration_minutes := some 60, duration := none, start_time := none,
    end_time := none, date := some 0, created_at := 0, billable := true,
    rate := none, customer_id := none, customer := none, task := none }

/-- Witness for C8: on a now-free entry set, evaluating the three pipelines at
the instants 5 and 99 gives identical results. -/
theorem C8_report_determinism_witness :
    generateReportData [fixedEntry] { dayGroupCfg with groupBy := GroupBy.customer } 5 =
      generateReportData [fixedEntry] { dayGroupCfg with groupBy := GroupBy.customer } 99 ∧
    generatePeriodSummaries [fixedEntry] { dayGroupCfg with groupBy := GroupBy.customer }
        PeriodView.week 5 =
      generatePeriodSummaries [fixedEntry] { dayGroupCfg with groupBy := GroupBy.customer }
        PeriodView.week 99 ∧
    generateClientSummaries [fixedEntry] 5 = generateClientSummaries [fixedEntry] 99 :=
  C8_report_determinism [fixedEntry] { dayGroupCfg with groupBy := GroupBy.customer }
    PeriodView.week 5 99
    (by
      intro e he
      rw [List.mem_singleton.mp he]
      exact ⟨Or.inl ⟨60, rfl, by decide⟩, Or.inl rfl⟩)

/-- A running entry: only `start_time` is set, so its duration reads the
ambient clock. -/
def runningEntry : Entry :=
  { duration_minutes := none, duration := none, start_time := some 0,
    end_time := none, date := some 0, created_at := 0, billable := true,
    rate := none, customer_id := none, customer := none, task := none }

/-- Counterexample to C8 as stated: over the same entry set and the same
filter configuration, running the report at instant 3600000 yields a row of
3600 seconds but at instant 7200000 a row of 7200 seconds — the output
depends on when the computation is performed. -/
theorem C8_counterexample :
    (generateReportData [runningEntry] { dayGroupCfg with groupBy := GroupBy.customer }
      3600000).map ReportRow.seconds = [3600] ∧
    (generateReportData [runningEntry] { dayGroupCfg with groupBy := GroupBy.customer }
      7200000).map ReportRow.seconds = [7200] ∧
    generateReportData [runningEntry] { dayGroupCfg with groupBy := GroupBy.customer }
        3600000 ≠
      generateReportData [runningEntry] { dayGroupCfg with groupBy := GroupBy.customer }
        7200000 := by
  have h1 : (generateReportData [runningEntry]
      { dayGroupCfg with groupBy := GroupBy.customer } 3600000).map ReportRow.seconds =
      [3600] := by decide
  have h2 : (generateReportData [runningEntry]
      { dayGroupCfg with groupBy := GroupBy.customer } 7200000).map ReportRow.seconds =
      [7200] := by decide
  refine ⟨h1, h2, fun heq => ?_⟩
  rw [heq, h2] at h1
  exact absurd h1 (by decide)

end TM
